import Mathlib

/-!
Shallow embedding of `rss.py` (RSSDOS world-feed aggregator).

Python strings are modelled as `List Char` (a Python `str` is a sequence of
code points, which `List Char` captures exactly).  The string helpers
(`_strip_html`, `_truncate`, `_domain_from_url`), the aggregation pipeline
(`fetch_all` with its cache / seen-ledger handling), the auto-speak latch
(`_auto_speak_newest_headline_if_changed`) and the TTS worker loop
(`WindowsTTSWorker._run`) are translated from the source.  External
collaborators that the source calls into — the HTTP transport together with
the XML feed parser (`http_get` / `parse_feed_best_effort`, whose only
observable effect at the `fetch_all` call site is "a list of raw records or
an exception per URL"), `html.unescape`, the two stdlib date parsers used by
`_parse_date_any`, and `time.strftime` — are fields of an `Env` record, so
every theorem quantifies over their behaviour.

Modelling notes kept throughout the file:
* Python `str.strip()` strips a slightly larger whitespace class than ASCII;
  the claims only exercise ASCII whitespace, modelled by `Char.isWhitespace`.
* Python floats (timestamps) are modelled as `Int`; the sort key
  `float(x.epoch or 0.0)` is numerically the identity on the stored epoch.
* A cache or ledger file that is missing, or whose read/parse raises, is
  modelled as `none` (both are treated identically by the source).
-/

abbrev Str := List Char

def str (s : String) : Str := s.data

/-- Python `s.lstrip()` on the modelled whitespace class. -/
def pyLstrip (s : Str) : Str := s.dropWhile Char.isWhitespace

/-- Python `s.rstrip()` on the modelled whitespace class. -/
def pyRstrip (s : Str) : Str := (s.reverse.dropWhile Char.isWhitespace).reverse

/-- Python `s.strip()` on the modelled whitespace class. -/
def pyStrip (s : Str) : Str := pyRstrip (pyLstrip s)

/-- Character scanner of `_strip_html` (rss.py:217-227): suppress everything
between `<` and `>`. -/
def stripHtmlAux : List Char → Bool → List Char
  | [], _ => []
  | c :: cs, inTag =>
    if c = '<' then stripHtmlAux cs true
    else if c = '>' then stripHtmlAux cs false
    else if inTag then stripHtmlAux cs true
    else c :: stripHtmlAux cs false

/-- `_strip_html` (rss.py:217-227): tag-suppressing scan, then
`.replace(" ", " ").strip()`. -/
def stripHtml (s : Str) : Str :=
  pyStrip ((stripHtmlAux s false).map (fun c => if c = ' ' then ' ' else c))

/-- `_truncate` (rss.py:230-234): strip, return unchanged when within the cap,
otherwise keep `max 0 (n-1)` characters, right-strip them and append `…`.
`n : Nat` so `n - 1` is Python's `max(0, n - 1)`. -/
def truncate (s : Str) (n : Nat) : Str :=
  if (pyStrip s).length ≤ n then pyStrip s else pyRstrip ((pyStrip s).take (n - 1)) ++ ['…']

/-- Scan for the first occurrence of `"://"` and return what follows it
(`url.split("://", 1)[1]` when `"://" in url`, rss.py:242). -/
def dropThroughSep : Str → Option Str
  | ':' :: '/' :: '/' :: rest => some rest
  | _ :: rest => dropThroughSep rest
  | [] => none

/-- `url.split("://", 1)[1] if "://" in url else url` (rss.py:242). -/
def afterScheme (s : Str) : Str := (dropThroughSep s).getD s

/-- `rest.split("/", 1)[0]` followed by `.lower()` (rss.py:243-244).
Python's `str.lower` is Unicode-aware; the hosts in play are ASCII, matching
`Char.toLower`. -/
def hostLower (u : Str) : Str :=
  ((afterScheme u).takeWhile (fun c => !(c == '/'))).map Char.toLower

/-- Does the list start with the four characters `w`, `w`, `w`, `.`? -/
def isWwwDot : Str → Bool
  | 'w' :: 'w' :: 'w' :: '.' :: _ => true
  | _ => false

/-- Python `host.replace("www.", "")`: remove every occurrence of `"www."`,
scanning left to right and resuming after each removal (rss.py:244). -/
def removeWww : Str → Str
  | 'w' :: 'w' :: 'w' :: '.' :: rest => removeWww rest
  | c :: rest => c :: removeWww rest
  | [] => []

/-- Does `"www."` occur anywhere in the list? -/
def hasWww : Str → Bool
  | [] => false
  | c :: cs => isWwwDot (c :: cs) || hasWww cs

/-- `_domain_from_url` (rss.py:237-246): strip, empty for empty input,
otherwise take the part after the first `"://"` (the whole string when there
is none) up to the first `/`, lower-case it and remove every `"www."`.
The `try/except` around these total string operations is unreachable. -/
def domainFromUrl (url : Str) : Str :=
  if pyStrip url = [] then [] else removeWww (hostLower (pyStrip url))

/-- Claim C9's reading of the spec: strip only a LEADING `"www."` from the
host, leaving the rest untouched. -/
def stripLeadingWww (h : Str) : Str := if isWwwDot h then h.drop 4 else h

/-! ### Auto-speak latch (rss.py:75-79, 628-630, 1140-1165) -/

def AUTO_SPEAK_NEWEST_HEADLINE_ON_CHANGE : Bool := true

def AUTO_SPEAK_ON_START : Bool := false

structure LatchConfig where
  onChange : Bool
  speakOnStart : Bool
deriving DecidableEq

/-- The configuration constants of the source (rss.py:77-78). -/
def autoLatchCfg : LatchConfig :=
  ⟨AUTO_SPEAK_NEWEST_HEADLINE_ON_CHANGE, AUTO_SPEAK_ON_START⟩

structure LatchState where
  firstLoadDone : Bool
  lastId : Option Str
deriving DecidableEq

/-- Initial latch state (rss.py:629-630): `_first_load_done = False`,
`_last_newest_headline_id = None`. -/
def latchInit : LatchState := ⟨false, none⟩

/-- One pass of `_auto_speak_newest_headline_if_changed` (rss.py:1140-1165).
The input is `none` when `_headline_items` is empty, otherwise
`some (newest.id or "")`.  The returned `Bool` is whether a Speak command is
issued (`tts.speak_async` called with the composed headline text). -/
def latchStep (cfg : LatchConfig) (st : LatchState) (inp : Option Str) : LatchState × Bool :=
  if cfg.onChange = false then ({ st with firstLoadDone := true }, false)
  else
    match inp with
    | none => ({ st with firstLoadDone := true }, false)
    | some nid =>
      if st.firstLoadDone = false then
        (⟨true, some nid⟩, cfg.speakOnStart)
      else if nid ≠ [] ∧ nid ≠ st.lastId.getD [] then
        ({ st with lastId := some nid }, true)
      else (st, false)

/-- Run the latch over a sequence of passes, collecting per-pass speak
decisions. -/
def runLatch (cfg : LatchConfig) : LatchState → List (Option Str) → List Bool
  | _, [] => []
  | st, i :: is =>
    (latchStep cfg st i).2 :: runLatch cfg (latchStep cfg st i).1 is

/-! ### Data model (rss.py:188-210) and configuration (rss.py:64-71) -/

def CACHE_TTL_SECONDS : Int := 15 * 60

def MAX_ITEMS_TOTAL : Nat := 700

def MAX_ITEMS_PER_FEED : Nat := 140

def SUMMARY_CHARS_DETAIL : Nat := 1400

structure Item where
  id : Str
  epoch : Int
  ts : Str
  cat : Str
  src : Str
  src_code : Str
  title : Str
  summary : Str
  url : Str
  domain : Str
  is_new : Bool
deriving DecidableEq

structure FeedStatus where
  name : Str
  cat : Str
  status : Str
  used_url : Str
  error : Str
  count : Nat
deriving DecidableEq

/-- One raw record out of `parse_feed_best_effort`
(`{title, url, summary, date}`, rss.py:296-343). -/
structure RawRecord where
  title : Str
  url : Str
  summary : Str
  date : Str
deriving DecidableEq

/-- One entry of the `FEEDS` registry (rss.py:154-181). -/
structure Feed where
  cat : Str
  name : Str
  urls : List Str
deriving DecidableEq

/-- The persisted cache snapshot payload (rss.py:378-383). -/
structure CacheData where
  cache_ts : Int
  fetched_at : Str
  items : List Item
  statuses : List FeedStatus
deriving DecidableEq

/-- External collaborators and persisted state visible to one `fetch_all`
call.  `fetchParse u` is the combined observable behaviour of
`http_get(u)` followed by `parse_feed_best_effort` at the call site in
`fetch_all` (rss.py:421-422): either a record list (already capped at
`MAX_ITEMS_PER_FEED` by the parser; the model re-applies the cap) or an
exception rendered as its display string.  `rfc2822` and `isoparse` are
`email.utils.parsedate_to_datetime` and `datetime.fromisoformat` composed
with the naive→UTC fix-up and `.timestamp()` (rss.py:254-268); `unescape` is
`html.unescape`; `strftimeHHMM` is `time.strftime("%H:%M", localtime ·)`.
A `none` cache or seen file means absent or unreadable (the source treats
both as absent).  `cacheWriteFails` / `seenWriteFails` say whether the
corresponding `write_text` raises during this pass. -/
structure Env where
  now : Int
  nowStr : Str
  cacheFile : Option CacheData
  seenFile : Option (List Str)
  fetchParse : Str → Except Str (List RawRecord)
  unescape : Str → Str
  rfc2822 : Str → Option Int
  isoparse : Str → Option Int
  strftimeHHMM : Int → Str
  cacheWriteFails : Bool
  seenWriteFails : Bool

/-- `_parse_date_any` (rss.py:249-270): strip; empty → 0; try RFC-2822, then
ISO-8601 after rewriting a trailing `Z` to `+00:00`; 0 when both fail. -/
def parseDateAny (env : Env) (s0 : Str) : Int :=
  let s := pyStrip s0
  if s = [] then 0
  else
    match env.rfc2822 s with
    | some t => t
    | none =>
      let s2 := if s.getLast? = some 'Z' then s.dropLast ++ str "+00:00" else s
      match env.isoparse s2 with
      | some t => t
      | none => 0

/-- `_fmt_hhmm` (rss.py:273-279): `"--:--"` for a falsy epoch, otherwise the
local-time `"%H:%M"` rendering. -/
def fmtHHMM (env : Env) (epoch : Int) : Str :=
  if epoch = 0 then str "--:--" else env.strftimeHHMM epoch

/-- The `SRC_CODE` table (rss.py:131-151). -/
def SRC_CODE : List (Str × Str) :=
  [ (str "CBC Top Stories", str "CBC"),
    (str "CBC Canada", str "CBC"),
    (str "Al Jazeera", str "AJZ"),
    (str "The Guardian World", str "GDN"),
    (str "The Guardian Business", str "GDN"),
    (str "BBC World", str "BBC"),
    (str "BBC Sci/Env", str "BBC"),
    (str "Ars Technica", str "ARS"),
    (str "The Register", str "REG"),
    (str "Hacker News", str "HN"),
    (str "ScienceDaily", str "SCI"),
    (str "NASA Breaking", str "NASA"),
    (str "arXiv cs.AI", str "ARX"),
    (str "arXiv cs.LG", str "ARX"),
    (str "Bank of Canada News", str "BoC"),
    (str "BoC Press Releases", str "BoC"),
    (str "BoC Market Notices", str "BoC"),
    (str "WTO Latest News", str "WTO"),
    (str "Env Canada (BC Warnings)", str "ECCC") ]

/-- `SRC_CODE.get(name, name[:6].upper())` (rss.py:442). -/
def srcCode (name : Str) : Str :=
  ((SRC_CODE.lookup name).getD ((name.take 6).map Char.toUpper))

/-- The `FEEDS` registry (rss.py:154-181). -/
def FEEDS : List Feed :=
  [ ⟨str "NEWS", str "CBC Top Stories", [str "https://www.cbc.ca/webfeed/rss/rss-topstories"]⟩,
    ⟨str "NEWS", str "CBC Canada", [str "https://www.cbc.ca/webfeed/rss/rss-canada"]⟩,
    ⟨str "WORLD", str "Al Jazeera", [str "https://www.aljazeera.com/xml/rss/all.xml"]⟩,
    ⟨str "WORLD", str "The Guardian World", [str "https://www.theguardian.com/world/rss"]⟩,
    ⟨str "WORLD", str "BBC World", [str "http://feeds.bbci.co.uk/news/world/rss.xml"]⟩,
    ⟨str "FINANCE", str "The Guardian Business", [str "https://www.theguardian.com/business/rss"]⟩,
    ⟨str "ECONOMY", str "Bank of Canada News", [str "https://www.bankofcanada.ca/utility/news/feed/"]⟩,
    ⟨str "ECONOMY", str "BoC Press Releases", [str "https://www.bankofcanada.ca/content_type/press-releases/feed/"]⟩,
    ⟨str "FINANCE", str "BoC Market Notices", [str "https://www.bankofcanada.ca/content_type/notices/feed/"]⟩,
    ⟨str "TRADE", str "WTO Latest News", [str "https://www.wto.org/library/rss/latest_news_e.xml"]⟩,
    ⟨str "SCIENCE", str "ScienceDaily", [str "https://www.sciencedaily.com/rss/all.xml"]⟩,
    ⟨str "SCIENCE", str "BBC Sci/Env", [str "http://feeds.bbci.co.uk/news/science_and_environment/rss.xml"]⟩,
    ⟨str "SCIENCE", str "NASA Breaking", [str "https://www.nasa.gov/rss/dyn/breaking_news.rss"]⟩,
    ⟨str "RESEARCH", str "arXiv cs.AI", [str "http://export.arxiv.org/rss/cs.AI"]⟩,
    ⟨str "RESEARCH", str "arXiv cs.LG", [str "http://export.arxiv.org/rss/cs.LG"]⟩,
    ⟨str "TECH", str "Ars Technica", [str "https://feeds.arstechnica.com/arstechnica/index"]⟩,
    ⟨str "TECH", str "The Register", [str "https://www.theregister.com/headlines.atom"]⟩,
    ⟨str "TECH", str "Hacker News", [str "https://hnrss.org/frontpage"]⟩,
    ⟨str "WEATHER", str "Env Canada (BC Warnings)", [str "https://weather.gc.ca/rss/battleboard/bcrm1_e.xml"]⟩ ]

/-! ### Persistence (rss.py:346-392) -/

/-- `load_seen` (rss.py:346-354): the persisted id set, or empty when the
file is absent, unreadable or not a JSON list. -/
def loadSeen (env : Env) : List Str := (env.seenFile).getD []

/-- `load_cache` (rss.py:364-374): `none` when absent/unreadable, the data
when `now - cache_ts <= CACHE_TTL_SECONDS` (inclusive), `none` otherwise. -/
def loadCache (env : Env) : Option CacheData :=
  match env.cacheFile with
  | none => none
  | some d => if env.now - d.cache_ts ≤ CACHE_TTL_SECONDS then some d else none

/-- The seen-set update loop of `fetch_all` (rss.py:470-472): add every
surviving item's non-empty id. -/
def addIds (seen : List Str) (items : List Item) : List Str :=
  items.foldl (fun s it => if it.id ≠ [] ∧ ¬ s.contains it.id then s ++ [it.id] else s) seen

/-! ### The aggregation pipeline `fetch_all` (rss.py:399-476) -/

/-- Normalization of one raw record into an `Item` (rss.py:424-448). -/
def normalizeItem (env : Env) (f : Feed) (seen : List Str) (p : RawRecord) : Item :=
  let titleRaw := env.unescape (stripHtml p.title)
  let summaryRaw := env.unescape (stripHtml p.summary)
  let url := pyStrip p.url
  let fallbackId := f.name ++ str "|" ++ titleRaw.take 200 ++ str "|" ++ p.date.take 50
  let itemId := if url = [] then fallbackId else url
  let epoch := parseDateAny env p.date
  let title := truncate titleRaw 260
  ⟨itemId, epoch, fmtHHMM env epoch, f.cat, f.name, srcCode f.name,
   if title = [] then str "(no title)" else title,
   truncate summaryRaw SUMMARY_CHARS_DETAIL,
   url, domainFromUrl url, !(seen.contains itemId)⟩

/-- Result of the per-source URL loop (rss.py:415-457): the items collected,
`used_url`, `last_err`, and the URLs actually requested over the network. -/
structure UrlsResult where
  items : List Item
  used : Str
  lastErr : Str
  attempted : List Str
deriving DecidableEq

/-- The `for u in urls` loop (rss.py:419-457): each URL is tried in order;
an exception records the error and moves on; the first success normalizes
all its records and breaks (resetting `last_err` and setting `used_url`). -/
def tryUrls (env : Env) (f : Feed) (seen : List Str) : List Str → Str → UrlsResult
  | [], lastErr => ⟨[], [], lastErr, []⟩
  | u :: rest, _lastErr =>
    match env.fetchParse u with
    | Except.error e =>
      let r := tryUrls env f seen rest e
      ⟨r.items, r.used, r.lastErr, u :: r.attempted⟩
    | Except.ok recs =>
      ⟨(recs.take MAX_ITEMS_PER_FEED).map (normalizeItem env f seen), u, [], [u]⟩

/-- Per-feed outcome: contributed items, the `FeedStatus` appended for this
source, and the URLs requested. -/
structure FeedResult where
  items : List Item
  status : FeedStatus
  attempted : List Str
deriving DecidableEq

/-- One iteration of the `for f in FEEDS` loop (rss.py:411-465): run the URL
loop, then build the status — `OK` exactly when `count > 0 and not
last_err`, else `FAIL` with the first configured URL and `last_err`. -/
def processFeed (env : Env) (seen : List Str) (f : Feed) : FeedResult :=
  let r := tryUrls env f seen f.urls []
  if 0 < r.items.length ∧ r.lastErr = [] then
    ⟨r.items, ⟨f.name, f.cat, str "OK", r.used, [], r.items.length⟩, r.attempted⟩
  else
    ⟨r.items, ⟨f.name, f.cat, str "FAIL", f.urls.headD [], r.lastErr, 0⟩, r.attempted⟩

/-- Insert an item into a list sorted descending by `epoch`, before the
first element whose epoch is `≤` its own.  `foldr insertDesc []` is a stable
descending sort, the behaviour guaranteed for Python's
`items.sort(key=lambda x: float(x.epoch or 0.0), reverse=True)`
(rss.py:467): a stable sort, descending on the epoch key. -/
def insertDesc (x : Item) : List Item → List Item
  | [] => [x]
  | y :: ys => if y.epoch ≤ x.epoch then x :: y :: ys else y :: insertDesc x ys

/-- Stable descending-by-epoch sort (model of rss.py:467). -/
def sortDesc (l : List Item) : List Item := l.foldr insertDesc []

/-- All items appended across the `for f in FEEDS` loop, in collection
order (rss.py:408, 436-448): the pre-sort, pre-truncation merged list. -/
def mergedLive (env : Env) : List Item :=
  (FEEDS.map (fun f => (processFeed env (loadSeen env) f).items)).flatten

/-- The statuses list built by the loop (rss.py:409, 459-465). -/
def statusesLive (env : Env) : List FeedStatus :=
  FEEDS.map (fun f => (processFeed env (loadSeen env) f).status)

/-- All URLs requested over the network during a live pass. -/
def fetchedLive (env : Env) : List Str :=
  (FEEDS.map (fun f => (processFeed env (loadSeen env) f).attempted)).flatten

/-- The item list a live pass returns: sorted descending by epoch, truncated
to `MAX_ITEMS_TOTAL` (rss.py:467-468). -/
def liveItems (env : Env) : List Item :=
  (sortDesc (mergedLive env)).take MAX_ITEMS_TOTAL

/-- Everything `fetch_all` produces, observable effects included. -/
structure FetchResult where
  ret : Except Str (List Item × List FeedStatus × Str)
  fetched : List Str
  seenRead : Bool
  seenFileAfter : Option (List Str)
  cacheFileAfter : Option CacheData

/-- The live (non-cache) path of `fetch_all` (rss.py:407-476).  `save_seen`
(rss.py:357-361) swallows its own write failure, so a failed ledger write
leaves the file as it was and the pass continues.  `save_cache`
(rss.py:377-384) has NO try/except: a failing cache write raises out of
`fetch_all` (modelled as `Except.error`), after the ledger write already
happened. -/
def livePass (env : Env) : FetchResult :=
  let seenAfter :=
    if env.seenWriteFails then env.seenFile
    else some (addIds (loadSeen env) (liveItems env))
  if env.cacheWriteFails then
    ⟨Except.error (str "PersistenceError"), fetchedLive env, true, seenAfter, env.cacheFile⟩
  else
    ⟨Except.ok (liveItems env, statusesLive env, str "live"), fetchedLive env, true, seenAfter,
     some ⟨env.now, env.nowStr, liveItems env, statusesLive env⟩⟩

/-- `fetch_all(force_refresh)` (rss.py:399-476): with `force_refresh`
false and a valid cache snapshot, return it verbatim with provenance
`"cache"` — nothing fetched, the seen ledger neither read nor written;
otherwise run the live pass. -/
def fetchAll (env : Env) (forceRefresh : Bool) : FetchResult :=
  if forceRefresh then livePass env
  else
    match loadCache env with
    | some c =>
      ⟨Except.ok (c.items, c.statuses, str "cache"), [], false, env.seenFile, env.cacheFile⟩
    | none => livePass env

/-- The item list of a `FetchResult` (empty when the call raised). -/
def retItems (r : FetchResult) : List Item :=
  match r.ret with
  | Except.ok x => x.1
  | Except.error _ => []

/-- The statuses list of a `FetchResult` (empty when the call raised). -/
def retStatuses (r : FetchResult) : List FeedStatus :=
  match r.ret with
  | Except.ok x => x.2.1
  | Except.error _ => []

/-- Did the call return normally? -/
def retOk (r : FetchResult) : Bool :=
  match r.ret with
  | Except.ok _ => true
  | Except.error _ => false

/-! ### TTS worker (rss.py:483-594)

The worker is the single consumer of its command queue; `_kill_proc` is only
ever called from the worker thread (inside `_run`), so the loop is modelled
as a sequential interpreter over the queue contents.  `alive` is the set of
OS speech processes currently running (the worker waits on each launched
process, and the wait's return removes it); `procId` is `self._proc`, which
the source deliberately does not clear after a completed wait. -/

inductive Cmd where
  | speak (t : Str)
  | stop
  | quit
deriving DecidableEq

structure WorkerSt where
  queue : List Cmd
  procId : Option Nat
  alive : List Nat
  nextId : Nat
  launched : List Str
  running : Bool
deriving DecidableEq

/-- Worker state at thread start (rss.py:490-496): empty queue, no process,
loop alive. -/
def initW (q : List Cmd) : WorkerSt := ⟨q, none, [], 0, [], true⟩

/-- `_kill_proc` (rss.py:517-536): take `self._proc`, clear it, and if the
process is still running terminate it (`taskkill`, falling back to
`terminate`); a no-op when there is no process or it already exited. -/
def killProcS (s : WorkerSt) : WorkerSt :=
  match s.procId with
  | none => s
  | some p => { s with procId := none, alive := s.alive.erase p }

/-- The drain loop of the `stop` branch (rss.py:547-553): pop queued
commands until the queue is empty, returning from `_run` if a `__quit__` is
found (leaving anything after it unconsumed). -/
def drainQ : List Cmd → List Cmd × Bool
  | [] => ([], false)
  | Cmd.quit :: rest => (rest, true)
  | _ :: rest => drainQ rest

/-- One loop iteration of `_run` (rss.py:538-594) on an already-dequeued
command, producing the successor state and the trace of intermediate states
(kill done / process launched / wait returned).  The environment `env`
says whether the `subprocess.Popen` for the n-th allocated process id
succeeds; a launch or wait failure runs the `except` branch
(`_kill_proc`, continue). -/
def stepCmd (env : Nat → Bool) (c : Cmd) (s : WorkerSt) : WorkerSt × List WorkerSt :=
  match c with
  | Cmd.quit =>
    ((({ s with running := false }) : WorkerSt), [{ s with running := false }])
  | Cmd.stop =>
    let s1 := killProcS s
    let d := drainQ s1.queue
    let s2 := { s1 with queue := d.1, running := s1.running && !d.2 }
    (s2, [s1, s2])
  | Cmd.speak t =>
    let t1 := pyStrip t
    if t1 = [] then (s, [s])
    else
      let t2 := if 2500 < t1.length then t1.take 2490 ++ ['…'] else t1
      let s1 := killProcS s
      if env s1.nextId then
        let pid := s1.nextId
        let s2 := { s1 with procId := some pid, alive := pid :: s1.alive,
                            nextId := pid + 1, launched := s1.launched ++ [t2] }
        let s3 := { s2 with alive := s2.alive.erase pid }
        (s3, [s1, s2, s3])
      else
        let s2 := { s1 with nextId := s1.nextId + 1 }
        let s3 := killProcS s2
        (s3, [s1, s2, s3])

/-- Run the worker loop over the queued commands (fuel-indexed; the queue
only shrinks, so fuel `q.length` suffices), collecting every intermediate
state. -/
def runWorker (env : Nat → Bool) : Nat → WorkerSt → List WorkerSt
  | 0, s => [s]
  | Nat.succ fuel, s =>
    if s.running = false then [s]
    else
      match s.queue with
      | [] => [s]
      | c :: rest =>
        (stepCmd env c { s with queue := rest }).2 ++
          runWorker env fuel (stepCmd env c { s with queue := rest }).1

/-- The worker invariant: the live-process set is empty, or is exactly the
one process `self._proc` points to. -/
def WInv (s : WorkerSt) : Prop :=
  s.alive = [] ∨ ∃ p, s.procId = some p ∧ s.alive = [p]

/-- Claim C4's "items with unparseable dates (epoch = 0) sort last": no item
after a zero-epoch item has a different epoch. -/
def zerosLast (l : List Item) : Prop :=
  ∀ (i j : Nat) (hi : i < l.length) (hj : j < l.length), i < j →
    (l.get ⟨i, hi⟩).epoch = 0 → (l.get ⟨j, hj⟩).epoch = 0

/-! ### Concrete environments used by witnesses and counterexamples -/

/-- Baseline environment: no persisted state, every fetch raises, identity
entity-decoder, both stdlib date parsers fail, both persistence writes
succeed. -/
def envBase : Env :=
  { now := 0, nowStr := [], cacheFile := none, seenFile := none,
    fetchParse := fun _ => Except.error (str "boom"),
    unescape := fun s => s, rfc2822 := fun _ => none, isoparse := fun _ => none,
    strftimeHHMM := fun _ => [], cacheWriteFails := false, seenWriteFails := false }

/-- Every candidate URL of every source raises. -/
def envAllFail : Env := envBase

/-- Every source's URL fetches and parses successfully, yielding the SAME
single record (same item URL, hence the same item id) for each source. -/
def envDup : Env :=
  { envBase with
    fetchParse := fun _ => Except.ok [⟨str "t", str "http://d/a", str "s", str ""⟩] }

/-- Every source's URL fetches and parses successfully but yields zero
records. -/
def envOkEmpty : Env :=
  { envBase with fetchParse := fun _ => Except.ok [] }

/-- The first source's feed carries one record with an unparseable date and
one record dated 1960-01-01 UTC (a pre-epoch publish date, which
`parsedate_to_datetime(...).timestamp()` renders as the negative timestamp
-315619200); every other source raises. -/
def envNeg : Env :=
  { envBase with
    fetchParse := fun u =>
      if u = str "https://www.cbc.ca/webfeed/rss/rss-topstories" then
        Except.ok [⟨str "t1", str "u1", str "", str "zzz"⟩,
                   ⟨str "t2", str "u2", str "", str "Thu, 01 Jan 1960 00:00:00 GMT"⟩]
      else Except.error (str "e"),
    rfc2822 := fun s =>
      if s = str "Thu, 01 Jan 1960 00:00:00 GMT" then some (-315619200) else none }

/-- A cache snapshot whose age is exactly the TTL (the inclusive boundary),
plus a seen file, observed at `now = 900`. -/
def envCacheHit : Env :=
  { envBase with
    now := 900, seenFile := some [str "s0"],
    cacheFile := some ⟨0, str "t", [], []⟩ }

/-- A live pass during which the cache-file write raises. -/
def envCacheWriteFail : Env :=
  { envBase with seenFile := some [str "s0"], cacheWriteFails := true }

/-- A live pass during which the seen-ledger write raises. -/
def envSeenWriteFail : Env :=
  { envBase with seenFile := some [str "s0"], seenWriteFails := true }

/-! ### Lemmas about the stable descending sort -/

theorem insertDesc_perm (x : Item) (l : List Item) : List.Perm (insertDesc x l) (x :: l) := by
  induction l with
  | nil => simp [insertDesc]
  | cons y ys ih =>
    rw [insertDesc]
    by_cases hc : y.epoch ≤ x.epoch
    · rw [if_pos hc]
    · rw [if_neg hc]
      exact ((ih.cons y).trans (List.Perm.swap x y ys))

theorem sortDesc_perm (l : List Item) : List.Perm (sortDesc l) l := by
  induction l with
  | nil => simp [sortDesc]
  | cons x xs ih =>
    have h1 : sortDesc (x :: xs) = insertDesc x (sortDesc xs) := rfl
    rw [h1]
    exact (insertDesc_perm x (sortDesc xs)).trans (ih.cons x)

theorem mem_insertDesc {z x : Item} {l : List Item} (h : z ∈ insertDesc x l) :
    z = x ∨ z ∈ l := by
  have := (insertDesc_perm x l).mem_iff.mp h
  simpa using this

theorem pairwise_insertDesc (x : Item) (l : List Item)
    (h : l.Pairwise (fun a b => b.epoch ≤ a.epoch)) :
    (insertDesc x l).Pairwise (fun a b => b.epoch ≤ a.epoch) := by
  induction l with
  | nil => simp [insertDesc]
  | cons y ys ih =>
    rw [insertDesc]
    have hp := List.pairwise_cons.mp h
    by_cases hc : y.epoch ≤ x.epoch
    · rw [if_pos hc]
      refine List.pairwise_cons.mpr ⟨?_, h⟩
      intro z hz
      rcases List.mem_cons.mp hz with rfl | hzys
      · exact hc
      · exact le_trans (hp.1 z hzys) hc
    · rw [if_neg hc]
      refine List.pairwise_cons.mpr ⟨?_, ih hp.2⟩
      intro z hz
      rcases mem_insertDesc hz with rfl | hzys
      · exact (lt_of_not_le hc).le
      · exact hp.1 z hzys

theorem sortDesc_pairwise (l : List Item) :
    (sortDesc l).Pairwise (fun a b => b.epoch ≤ a.epoch) := by
  induction l with
  | nil => simp [sortDesc]
  | cons x xs ih => exact pairwise_insertDesc x (sortDesc xs) ih

theorem filter_insertDesc (k : Int) (x : Item) (l : List Item) :
    (insertDesc x l).filter (fun it => it.epoch == k) =
      (if x.epoch == k then [x] else []) ++ l.filter (fun it => it.epoch == k) := by
  induction l with
  | nil =>
    by_cases hx : x.epoch = k <;> simp [insertDesc, List.filter_cons, hx]
  | cons y ys ih =>
    rw [insertDesc]
    by_cases hc : y.epoch ≤ x.epoch
    · rw [if_pos hc]
      by_cases hx : x.epoch = k <;> simp [List.filter_cons, hx]
    · rw [if_neg hc]
      by_cases hy : y.epoch = k
      · by_cases hx : x.epoch = k
        · exact absurd (le_of_eq (hy.trans hx.symm)) hc
        · simp [List.filter_cons, hy, hx, ih]
      · simp [List.filter_cons, hy, ih]

theorem sortDesc_filter (k : Int) (l : List Item) :
    (sortDesc l).filter (fun it => it.epoch == k) = l.filter (fun it => it.epoch == k) := by
  induction l with
  | nil => simp [sortDesc]
  | cons x xs ih =>
    have h1 : sortDesc (x :: xs) = insertDesc x (sortDesc xs) := rfl
    rw [h1, filter_insertDesc, ih]
    by_cases hx : x.epoch = k <;> simp [List.filter_cons, hx]

/-! ### Lemmas about the string utilities -/

theorem dropWhile_length_le (p : Char → Bool) (l : List Char) :
    (l.dropWhile p).length ≤ l.length := by
  induction l with
  | nil => simp
  | cons c cs ih =>
    rw [List.dropWhile_cons]
    by_cases h : p c = true
    · simp only [h, if_pos]
      exact le_trans ih (Nat.le_succ _)
    · simp [h]

theorem pyRstrip_length_le (s : Str) : (pyRstrip s).length ≤ s.length := by
  unfold pyRstrip
  rw [List.length_reverse]
  calc (s.reverse.dropWhile Char.isWhitespace).length
      ≤ s.reverse.length := dropWhile_length_le _ _
    _ = s.length := List.length_reverse s

theorem truncate_length_le (s : Str) (n : Nat) (hn : 1 ≤ n) :
    (truncate s n).length ≤ n := by
  unfold truncate
  by_cases h : (pyStrip s).length ≤ n
  · rw [if_pos h]
    exact h
  · rw [if_neg h, List.length_append]
    have h1 : (pyRstrip ((pyStrip s).take (n - 1))).length ≤ n - 1 :=
      le_trans (pyRstrip_length_le _) (by simp [List.length_take])
    simp only [List.length_singleton]
    omega

theorem truncate_of_le (s : Str) (n : Nat) (hs : pyStrip s = s) (h : s.length ≤ n) :
    truncate s n = s := by
  unfold truncate
  rw [hs, if_pos h]

theorem truncate_getLast (s : Str) (n : Nat) (h : n < (pyStrip s).length) :
    (truncate s n).getLast? = some '…' := by
  unfold truncate
  rw [if_neg (by omega)]
  exact List.getLast?_concat _

theorem truncate_full_of_no_ws (s : Str) (n : Nat) (h : n < (pyStrip s).length)
    (hrw : pyRstrip ((pyStrip s).take (n - 1)) = (pyStrip s).take (n - 1)) :
    (truncate s n).length = n - 1 + 1 := by
  unfold truncate
  rw [if_neg (by omega), hrw, List.length_append]
  simp only [List.length_singleton, List.length_take]
  omega

/-! ### Lemmas about `removeWww` -/

theorem isWwwDot_eq_true (l : Str) (h : isWwwDot l = true) :
    ∃ t, l = 'w' :: 'w' :: 'w' :: '.' :: t := by
  unfold isWwwDot at h
  split at h
  · next t => exact ⟨t, rfl⟩
  · exact absurd h (by simp)

theorem removeWww_www (t : Str) :
    removeWww ('w' :: 'w' :: 'w' :: '.' :: t) = removeWww t := rfl

theorem removeWww_of_not_hasWww (l : Str) (h : hasWww l = false) : removeWww l = l := by
  induction l using removeWww.induct with
  | case1 rest ih => simp [hasWww, isWwwDot] at h
  | case2 c rest hne ih =>
    rw [hasWww] at h
    simp only [Bool.or_eq_false_iff] at h
    rw [removeWww.eq_2 c rest hne, ih h.2]
  | case3 => rfl

/-! ### Lemmas about the per-source URL loop and the live pass -/

theorem tryUrls_cons_error (env : Env) (f : Feed) (seen : List Str) (u : Str)
    (rest : List Str) (le e0 : Str) (he : env.fetchParse u = Except.error e0) :
    tryUrls env f seen (u :: rest) le =
      ⟨(tryUrls env f seen rest e0).items, (tryUrls env f seen rest e0).used,
       (tryUrls env f seen rest e0).lastErr, u :: (tryUrls env f seen rest e0).attempted⟩ := by
  simp only [tryUrls, he]

theorem tryUrls_allFail (env : Env) (f : Feed) (seen : List Str) :
    ∀ (us : List Str) (le ul e : Str),
      (∀ u ∈ us, ∃ e0, env.fetchParse u = Except.error e0) →
      us.getLast? = some ul →
      env.fetchParse ul = Except.error e →
      tryUrls env f seen us le = ⟨[], [], e, us⟩ := by
  intro us
  induction us with
  | nil =>
    intro le ul e _ h2 _
    simp at h2
  | cons u rest ih =>
    intro le ul e h1 h2 h3
    cases rest with
    | nil =>
      have hu : u = ul := by simpa using h2
      subst hu
      simp [tryUrls, h3]
    | cons v t =>
      obtain ⟨e0, he⟩ := h1 u (by simp)
      have h2' : (v :: t).getLast? = some ul := by
        simpa [List.getLast?_cons_cons] using h2
      have hr := ih e0 ul e (fun w hw => h1 w (by simp [hw])) h2' h3
      rw [tryUrls_cons_error env f seen u (v :: t) le e0 he, hr]

theorem tryUrls_success (env : Env) (f : Feed) (seen : List Str) :
    ∀ (pre : List Str) (u : Str) (post : List Str) (le : Str) (recs : List RawRecord),
      (∀ v ∈ pre, ∃ e0, env.fetchParse v = Except.error e0) →
      env.fetchParse u = Except.ok recs →
      tryUrls env f seen (pre ++ u :: post) le =
        ⟨(recs.take MAX_ITEMS_PER_FEED).map (normalizeItem env f seen), u, [], pre ++ [u]⟩ := by
  intro pre
  induction pre with
  | nil =>
    intro u post le recs _ h2
    simp [tryUrls, h2]
  | cons v vs ih =>
    intro u post le recs h1 h2
    obtain ⟨e0, he⟩ := h1 v (by simp)
    have hr := ih u post e0 recs (fun w hw => h1 w (by simp [hw])) h2
    simp [tryUrls, he, hr]

theorem sublist_flatten_of_mem {α : Type} (L : List (List α)) (l : List α) (h : l ∈ L) :
    l.Sublist L.flatten := by
  induction L with
  | nil => simp at h
  | cons m M ih =>
    rw [List.flatten_cons]
    rcases List.mem_cons.mp h with rfl | hm
    · exact List.sublist_append_left _ _
    · exact (ih hm).trans (List.sublist_append_right _ _)

theorem fetchAll_force (env : Env) : fetchAll env true = livePass env := rfl

theorem livePass_ret (env : Env) (hc : env.cacheWriteFails = false) :
    (livePass env).ret = Except.ok (liveItems env, statusesLive env, str "live") := by
  simp [livePass, hc]

theorem processFeed_ok_imp (env : Env) (seen : List Str) (f : Feed)
    (h : (processFeed env seen f).status.status = str "OK") :
    0 < (processFeed env seen f).items.length := by
  simp only [processFeed] at h ⊢
  split at h
  · next hcond =>
    rw [if_pos hcond]
    exact hcond.1
  · next hcond =>
    have h2 : str "FAIL" = str "OK" := h
    exact absurd h2 (by decide)

/-! ### Lemmas about the TTS worker -/

theorem killProcS_of_inv (s : WorkerSt) (h : WInv s) :
    (killProcS s).alive = [] ∧ (killProcS s).procId = none := by
  unfold killProcS
  cases hp : s.procId with
  | none =>
    rcases h with ha | ⟨p, hp2, _⟩
    · exact ⟨ha, hp⟩
    · rw [hp] at hp2
      exact absurd hp2 (by simp)
  | some p =>
    rcases h with ha | ⟨q, hq, ha⟩
    · simp [ha]
    · rw [hp] at hq
      have hpq : p = q := by simpa using hq
      subst hpq
      simp [ha]

theorem killProcS_none (s : WorkerSt) (h : s.procId = none) : killProcS s = s := by
  unfold killProcS
  rw [h]

theorem drainQ_no_quit (q : List Cmd) (h : (drainQ q).2 = false) : (drainQ q).1 = [] := by
  induction q with
  | nil => rfl
  | cons c rest ih =>
    cases c with
    | quit => simp [drainQ] at h
    | stop => exact ih (by simpa [drainQ] using h)
    | speak t => exact ih (by simpa [drainQ] using h)

theorem stepCmd_inv (env : Nat → Bool) (c : Cmd) (s : WorkerSt) (h : WInv s) :
    WInv (stepCmd env c s).1 ∧ ∀ x ∈ (stepCmd env c s).2, WInv x := by
  obtain ⟨hka, hkp⟩ := killProcS_of_inv s h
  have hkinv : WInv (killProcS s) := Or.inl hka
  cases c with
  | quit =>
    have hq : WInv ({ s with running := false } : WorkerSt) := by
      rcases h with ha | ⟨p, hp, ha⟩
      · exact Or.inl ha
      · exact Or.inr ⟨p, hp, ha⟩
    refine ⟨hq, ?_⟩
    intro x hx
    simp only [stepCmd, List.mem_singleton] at hx
    subst hx
    exact hq
  | stop =>
    refine ⟨Or.inl hka, ?_⟩
    intro x hx
    simp only [stepCmd, List.mem_cons, List.not_mem_nil, or_false] at hx
    rcases hx with rfl | rfl
    · exact hkinv
    · exact Or.inl hka
  | speak t =>
    by_cases ht : pyStrip t = []
    · refine ⟨by simpa only [stepCmd, if_pos ht] using h, ?_⟩
      intro x hx
      simp only [stepCmd, if_pos ht, List.mem_singleton] at hx
      subst hx
      exact h
    · by_cases he : env (killProcS s).nextId = true
      · refine ⟨?_, ?_⟩
        · simp only [stepCmd, if_neg ht, if_pos he]
          exact Or.inl (by simp [hka])
        · intro x hx
          simp only [stepCmd, if_neg ht, if_pos he, List.mem_cons,
            List.not_mem_nil, or_false] at hx
          rcases hx with rfl | rfl | rfl
          · exact hkinv
          · exact Or.inr ⟨(killProcS s).nextId, rfl, by simp [hka]⟩
          · exact Or.inl (by simp [hka])
      · refine ⟨?_, ?_⟩
        · simp only [stepCmd, if_neg ht, if_neg he]
          exact Or.inl (killProcS_of_inv
            { killProcS s with nextId := (killProcS s).nextId + 1 } (Or.inl hka)).1
        · intro x hx
          simp only [stepCmd, if_neg ht, if_neg he, List.mem_cons,
            List.not_mem_nil, or_false] at hx
          rcases hx with rfl | rfl | rfl
          · exact hkinv
          · exact Or.inl hka
          · exact Or.inl (killProcS_of_inv
              { killProcS s with nextId := (killProcS s).nextId + 1 } (Or.inl hka)).1

theorem runWorker_inv (env : Nat → Bool) :
    ∀ (fuel : Nat) (s : WorkerSt), WInv s → ∀ x ∈ runWorker env fuel s, WInv x := by
  intro fuel
  induction fuel with
  | zero =>
    intro s hs x hx
    simp only [runWorker, List.mem_singleton] at hx
    subst hx
    exact hs
  | succ n ih =>
    intro s hs x hx
    rw [runWorker] at hx
    by_cases hr : s.running = false
    · rw [if_pos hr] at hx
      simp only [List.mem_singleton] at hx
      subst hx
      exact hs
    · rw [if_neg hr] at hx
      cases hq : s.queue with
      | nil =>
        rw [hq] at hx
        simp only [List.mem_singleton] at hx
        subst hx
        exact hs
      | cons c rest =>
        rw [hq] at hx
        have hs' : WInv { s with queue := rest } := hs
        obtain ⟨h1, h2⟩ := stepCmd_inv env c { s with queue := rest } hs'
        rcases List.mem_append.mp hx with hx1 | hx2
        · exact h2 x hx1
        · exact ih _ h1 x hx2

/-! ### Claim theorems -/

set_option maxRecDepth 4000

/-- C6 (counterexample): the claim says every cleaned 300-character title
truncated under the 260 cap yields a 260-character result.  For the cleaned,
already-stripped 300-character title `'a'*258 ++ " " ++ 'b'*41`, the source's
`_truncate` right-strips the kept 259-character prefix (dropping its
trailing space) before appending the ellipsis, producing 259 characters. -/
theorem C6_truncation_counterexample :
    pyStrip (List.replicate 258 'a' ++ ' ' :: List.replicate 41 'b') =
      List.replicate 258 'a' ++ ' ' :: List.replicate 41 'b'
    ∧ (List.replicate 258 'a' ++ ' ' :: List.replicate 41 'b' : Str).length = 300
    ∧ (truncate (List.replicate 258 'a' ++ ' ' :: List.replicate 41 'b') 260).length = 259 :=
  ⟨by decide, by decide, by decide⟩

/-- C6 (amended): truncation of a cleaned title never exceeds the cap (for
any cap ≥ 1), a cleaned string within the cap is returned unchanged, a
truncated result ends in the ellipsis character, and a cleaned 300-character
title under the 260 cap yields at most 260 characters — exactly 260 when the
kept 259-character prefix carries no trailing whitespace (trailing
whitespace at the cut is stripped first and shortens the result). -/
theorem C6_truncation_amended (s : Str) (n : Nat) (hn : 1 ≤ n) :
    (truncate s n).length ≤ n
    ∧ (pyStrip s = s → s.length ≤ n → truncate s n = s)
    ∧ (n < (pyStrip s).length → (truncate s n).getLast? = some '…')
    ∧ ((pyStrip s).length = 300 → n = 260 →
        ((truncate s n).length ≤ 260
         ∧ (pyRstrip ((pyStrip s).take 259) = (pyStrip s).take 259 →
             (truncate s n).length = 260))) := by
  refine ⟨truncate_length_le s n hn, fun hs h => truncate_of_le s n hs h,
    fun h => truncate_getLast s n h, ?_⟩
  intro h300 hn260
  subst hn260
  refine ⟨truncate_length_le s 260 (by omega), ?_⟩
  intro hrw
  have h2 := truncate_full_of_no_ws s 260 (by omega) (by simpa using hrw)
  omega

/-- C6 witness: the all-`'a'` 300-character title truncates to exactly 260
characters under the 260 cap. -/
theorem C6_truncation_amended_witness :
    (truncate (List.replicate 300 'a') 260).length = 260 :=
  ((C6_truncation_amended (List.replicate 300 'a') 260 (by decide)).2.2.2
    (by decide) rfl).2 (by decide)

/-- C9 (counterexample): for `https://awww.example.com/x` the host is
`awww.example.com`; the claim says only a leading `"www."` is stripped and
no other part of the host is altered, but the source's
`host.replace("www.", "")` removes the interior occurrence too, yielding
`aexample.com`. -/
theorem C9_domain_counterexample :
    hostLower (pyStrip (str "https://awww.example.com/x")) = str "awww.example.com"
    ∧ domainFromUrl (str "https://awww.example.com/x") = str "aexample.com"
    ∧ domainFromUrl (str "https://awww.example.com/x")
        ≠ stripLeadingWww (hostLower (pyStrip (str "https://awww.example.com/x"))) :=
  ⟨by decide, by decide, by decide⟩

/-- C9 (amended): the domain is the lower-cased host with EVERY occurrence
of `"www."` removed, not only a leading one (and empty for an empty URL);
when the host contains no occurrence of `"www."` beyond a possibly leading
one, this coincides with the claim's leading-strip. -/
theorem C9_domain_amended (url : Str) :
    (pyStrip url = [] → domainFromUrl url = [])
    ∧ (hasWww (stripLeadingWww (hostLower (pyStrip url))) = false →
        domainFromUrl url = stripLeadingWww (hostLower (pyStrip url))) := by
  constructor
  · intro hu
    unfold domainFromUrl
    rw [if_pos hu]
  · intro hw
    unfold domainFromUrl
    by_cases hu : pyStrip url = []
    · rw [if_pos hu, hu]
      decide
    · rw [if_neg hu]
      by_cases hd : isWwwDot (hostLower (pyStrip url)) = true
      · obtain ⟨t, ht⟩ := isWwwDot_eq_true _ hd
        rw [ht] at hw ⊢
        have h1 : stripLeadingWww ('w' :: 'w' :: 'w' :: '.' :: t) = t := by
          unfold stripLeadingWww
          rw [if_pos (by rfl)]
          rfl
        rw [h1] at hw ⊢
        rw [removeWww_www]
        exact removeWww_of_not_hasWww t hw
      · have h1 : stripLeadingWww (hostLower (pyStrip url)) = hostLower (pyStrip url) := by
          unfold stripLeadingWww
          rw [if_neg hd]
        rw [h1] at hw ⊢
        exact removeWww_of_not_hasWww _ hw

/-- C9 witness: for a host whose only `"www."` is the leading one, the
source's domain equals the leading-strip of the lower-cased host. -/
theorem C9_domain_amended_witness :
    domainFromUrl (str "https://www.Example.com/x")
      = stripLeadingWww (hostLower (pyStrip (str "https://www.Example.com/x"))) :=
  (C9_domain_amended (str "https://www.Example.com/x")).2 (by decide)

/-- C7: with the source configuration (auto-speak on change, speak-on-start
disabled), the five-pass newest-headline sequence `[A, A, B, B, A]` (both
ids non-empty, distinct) issues exactly the speak pattern
`[false, false, true, false, true]` — two Speaks, on the transition to `B`
and back to `A`, none on the first pass; moreover a pass whose newest id
equals the latched id never speaks, and an empty newest id never triggers a
Speak after the first pass. -/
theorem C7_latch (A B : Str) (hA : A ≠ []) (hB : B ≠ []) (hAB : A ≠ B) :
    runLatch autoLatchCfg latchInit [some A, some A, some B, some B, some A]
      = [false, false, true, false, true]
    ∧ (∀ st : LatchState, (latchStep autoLatchCfg st (some (st.lastId.getD []))).2 = false)
    ∧ (∀ st : LatchState, st.firstLoadDone = true →
        (latchStep autoLatchCfg st (some [])).2 = false) := by
  have hBA : B ≠ A := fun hh => hAB hh.symm
  have e1 : latchStep autoLatchCfg latchInit (some A) = (⟨true, some A⟩, false) := by
    simp [latchStep, autoLatchCfg, latchInit, AUTO_SPEAK_NEWEST_HEADLINE_ON_CHANGE,
      AUTO_SPEAK_ON_START]
  have e2 : latchStep autoLatchCfg ⟨true, some A⟩ (some A) = (⟨true, some A⟩, false) := by
    simp [latchStep, autoLatchCfg, AUTO_SPEAK_NEWEST_HEADLINE_ON_CHANGE]
  have e3 : latchStep autoLatchCfg ⟨true, some A⟩ (some B) = (⟨true, some B⟩, true) := by
    simp [latchStep, autoLatchCfg, AUTO_SPEAK_NEWEST_HEADLINE_ON_CHANGE, hB, hBA]
  have e4 : latchStep autoLatchCfg ⟨true, some B⟩ (some B) = (⟨true, some B⟩, false) := by
    simp [latchStep, autoLatchCfg, AUTO_SPEAK_NEWEST_HEADLINE_ON_CHANGE]
  have e5 : latchStep autoLatchCfg ⟨true, some B⟩ (some A) = (⟨true, some A⟩, true) := by
    simp [latchStep, autoLatchCfg, AUTO_SPEAK_NEWEST_HEADLINE_ON_CHANGE, hA, hAB]
  refine ⟨?_, ?_, ?_⟩
  · simp only [runLatch, e1, e2, e3, e4, e5]
  · intro st
    rcases st with ⟨fl, last⟩
    cases fl
    · simp [latchStep, autoLatchCfg, AUTO_SPEAK_NEWEST_HEADLINE_ON_CHANGE,
        AUTO_SPEAK_ON_START]
    · simp [latchStep, autoLatchCfg, AUTO_SPEAK_NEWEST_HEADLINE_ON_CHANGE]
  · intro st hfl
    rcases st with ⟨fl, last⟩
    cases fl
    · simp at hfl
    · simp [latchStep, autoLatchCfg, AUTO_SPEAK_NEWEST_HEADLINE_ON_CHANGE]

/-- C7 witness: the latch run on concrete ids `"a"` and `"b"`. -/
theorem C7_latch_witness :
    runLatch autoLatchCfg latchInit
      [some (str "a"), some (str "a"), some (str "b"), some (str "b"), some (str "a")]
      = [false, false, true, false, true] :=
  (C7_latch (str "a") (str "b") (by decide) (by decide) (by decide)).1

/-- C8: in every state reachable by the worker loop from its start, at most
one speech process is alive; `_kill_proc` (run before every launch) leaves
no process alive and no process reference; and processing `Stop` leaves no
process alive, no process reference, and either an emptied queue (worker
idle) or — when a queued Shutdown was hit during the drain — a worker that
has exited. -/
theorem C8_worker_single_flight :
    (∀ (env : Nat → Bool) (q : List Cmd) (fuel : Nat),
       ∀ x ∈ runWorker env fuel (initW q), x.alive.length ≤ 1)
    ∧ (∀ s : WorkerSt, WInv s →
        (killProcS s).alive = [] ∧ (killProcS s).procId = none)
    ∧ (∀ (env : Nat → Bool) (s : WorkerSt), WInv s →
        (stepCmd env Cmd.stop s).1.alive = []
        ∧ (stepCmd env Cmd.stop s).1.procId = none
        ∧ ((stepCmd env Cmd.stop s).1.running = false
           ∨ (stepCmd env Cmd.stop s).1.queue = [])) := by
  refine ⟨?_, killProcS_of_inv, ?_⟩
  · intro env q fuel x hx
    have hinv := runWorker_inv env fuel (initW q) (Or.inl rfl) x hx
    rcases hinv with ha | ⟨p, _, ha⟩ <;> simp [ha]
  · intro env s hs
    obtain ⟨hka, hkp⟩ := killProcS_of_inv s hs
    refine ⟨hka, hkp, ?_⟩
    by_cases hd : (drainQ (killProcS s).queue).2 = true
    · left
      simp only [stepCmd]
      simp [hd]
    · right
      have hd' : (drainQ (killProcS s).queue).2 = false := by simpa using hd
      simp only [stepCmd]
      simp [drainQ_no_quit _ hd']

/-- C8 witness: the invariant and the kill/stop properties at the initial
worker state. -/
theorem C8_worker_single_flight_witness :
    (killProcS (initW [])).alive = [] :=
  (C8_worker_single_flight.2.1 (initW []) (Or.inl rfl)).1

theorem loadCache_some (env : Env) (c : CacheData) (hc : env.cacheFile = some c)
    (hle : env.now - c.cache_ts ≤ CACHE_TTL_SECONDS) : loadCache env = some c := by
  unfold loadCache
  rw [hc]
  show (if env.now - c.cache_ts ≤ CACHE_TTL_SECONDS then some c else none) = some c
  rw [if_pos hle]

theorem loadCache_expired (env : Env) (c : CacheData) (hc : env.cacheFile = some c)
    (hgt : CACHE_TTL_SECONDS < env.now - c.cache_ts) : loadCache env = none := by
  unfold loadCache
  rw [hc]
  show (if env.now - c.cache_ts ≤ CACHE_TTL_SECONDS then some c else none) = none
  rw [if_neg (by omega)]

theorem loadCache_absent (env : Env) (hc : env.cacheFile = none) : loadCache env = none := by
  unfold loadCache
  rw [hc]

theorem fetchAll_noforce (env : Env) :
    fetchAll env false =
      (match loadCache env with
       | some c =>
         (⟨Except.ok (c.items, c.statuses, str "cache"), [], false, env.seenFile,
           env.cacheFile⟩ : FetchResult)
       | none => livePass env) := rfl

/-- C5: with `force_refresh` false, a cache snapshot whose age is at most
the TTL (the boundary `now - cache_ts = TTL` included) is returned verbatim
with provenance `"cache"` — no URL fetched, the seen ledger neither read nor
written, both files untouched; a snapshot strictly older than the TTL, or an
absent/unreadable one, is treated as missing and the live pass runs. -/
theorem C5_cache_ttl (env : Env) :
    (∀ c : CacheData, env.cacheFile = some c →
       env.now - c.cache_ts ≤ CACHE_TTL_SECONDS →
       fetchAll env false =
         ⟨Except.ok (c.items, c.statuses, str "cache"), [], false, env.seenFile,
          env.cacheFile⟩)
    ∧ (∀ c : CacheData, env.cacheFile = some c →
       CACHE_TTL_SECONDS < env.now - c.cache_ts →
       fetchAll env false = livePass env)
    ∧ (env.cacheFile = none → fetchAll env false = livePass env) := by
  refine ⟨?_, ?_, ?_⟩
  · intro c hc hle
    rw [fetchAll_noforce, loadCache_some env c hc hle]
  · intro c hc hgt
    rw [fetchAll_noforce, loadCache_expired env c hc hgt]
  · intro hc
    rw [fetchAll_noforce, loadCache_absent env hc]

/-- C5 witness: a snapshot aged exactly the TTL (900 s) is served from
cache verbatim with no fetch and an untouched ledger. -/
theorem C5_cache_ttl_witness :
    fetchAll envCacheHit false =
      ⟨Except.ok (([] : List Item), ([] : List FeedStatus), str "cache"), [], false,
       envCacheHit.seenFile, envCacheHit.cacheFile⟩ :=
  (C5_cache_ttl envCacheHit).1 ⟨0, str "t", [], []⟩ rfl (by decide)

/-- C3 (model of the failing input): on a live pass in which the cache-file
write raises, `fetch_all` raises instead of returning the in-memory
`(items, statuses, "live")` triple — `save_cache` (rss.py:377-384) has no
try/except, unlike every sibling persistence helper — while the seen-ledger
write that precedes it already happened; and a pass in which only the
seen-ledger write raises DOES return normally (`save_seen`, rss.py:357-361,
swallows its error), leaving the ledger file unchanged. -/
theorem C3_persist_failure_model :
    (fetchAll envCacheWriteFail true).ret = Except.error (str "PersistenceError")
    ∧ (fetchAll envCacheWriteFail true).seenFileAfter
        = some (addIds (loadSeen envCacheWriteFail) (liveItems envCacheWriteFail))
    ∧ retOk (fetchAll envSeenWriteFail true) = true
    ∧ (fetchAll envSeenWriteFail true).seenFileAfter = envSeenWriteFail.seenFile :=
  ⟨rfl, rfl, rfl, rfl⟩

/-- C10: a source whose first candidate URL fetches and parses successfully
but yields zero records gets `FeedStatus` `FAIL` with an EMPTY error string,
count 0 and `used_url` the first configured URL, and contributes no items —
even though no attempt failed; in general a status of `OK` requires at least
one contributed item. -/
theorem C10_empty_feed_fail (env : Env) (i : Nat) (hi : i < FEEDS.length)
    (u : Str) (rest : List Str) (hurls : (FEEDS.get ⟨i, hi⟩).urls = u :: rest)
    (hok : env.fetchParse u = Except.ok []) :
    (processFeed env (loadSeen env) (FEEDS.get ⟨i, hi⟩)).items = []
    ∧ (statusesLive env).get? i =
        some ⟨(FEEDS.get ⟨i, hi⟩).name, (FEEDS.get ⟨i, hi⟩).cat, str "FAIL", u, [], 0⟩
    ∧ (∀ (env2 : Env) (seen : List Str) (f : Feed),
         (processFeed env2 seen f).status.status = str "OK" →
         0 < (processFeed env2 seen f).items.length) := by
  have htry : tryUrls env (FEEDS.get ⟨i, hi⟩) (loadSeen env)
      ((FEEDS.get ⟨i, hi⟩).urls) [] = ⟨[], u, [], [u]⟩ := by
    rw [hurls]
    have h0 := tryUrls_success env (FEEDS.get ⟨i, hi⟩) (loadSeen env) [] u rest []
      [] (by simp) hok
    simpa using h0
  have hpf : processFeed env (loadSeen env) (FEEDS.get ⟨i, hi⟩) =
      ⟨[], ⟨(FEEDS.get ⟨i, hi⟩).name, (FEEDS.get ⟨i, hi⟩).cat, str "FAIL", u, [], 0⟩,
       [u]⟩ := by
    unfold processFeed
    rw [htry, hurls]
    simp
  refine ⟨by rw [hpf], ?_, fun env2 seen f h => processFeed_ok_imp env2 seen f h⟩
  have hst : (statusesLive env).get? i =
      (FEEDS.get? i).map (fun f => (processFeed env (loadSeen env) f).status) := by
    simp [statusesLive, List.get?_map]
  rw [hst, List.get?_eq_get hi, Option.map_some', hpf]

/-- C10 witness: with every URL parsing to zero records, the first source
(CBC Top Stories) is reported FAIL with empty error, count 0 and its first
configured URL. -/
theorem C10_empty_feed_fail_witness :
    (statusesLive envOkEmpty).get? 0 =
      some ⟨str "CBC Top Stories", str "NEWS", str "FAIL",
            str "https://www.cbc.ca/webfeed/rss/rss-topstories", [], 0⟩ :=
  (C10_empty_feed_fail envOkEmpty 0 (by decide)
    (str "https://www.cbc.ca/webfeed/rss/rss-topstories") [] rfl rfl).2.1

theorem processFeed_items_eq (env : Env) (seen : List Str) (f : Feed) :
    (processFeed env seen f).items = (tryUrls env f seen f.urls []).items := by
  simp only [processFeed]
  split <;> rfl

/-- C2: a source all of whose candidate URLs fail gets status `FAIL`
carrying the LAST error, `used_url` the first configured URL, count 0, and
contributes no items; a source's contribution is all-or-nothing per URL
attempt — it is exactly the normalized records of the first successful URL,
failed attempts contributing nothing — and every source's contribution
(in particular that of every source that succeeded) is included in the
merged pre-truncation list. -/
theorem C2_source_failure_isolation (env : Env) (i : Nat) (hi : i < FEEDS.length)
    (ul e : Str)
    (h1 : ∀ u ∈ (FEEDS.get ⟨i, hi⟩).urls, ∃ e0, env.fetchParse u = Except.error e0)
    (h2 : (FEEDS.get ⟨i, hi⟩).urls.getLast? = some ul)
    (h3 : env.fetchParse ul = Except.error e) :
    ((processFeed env (loadSeen env) (FEEDS.get ⟨i, hi⟩)).items = []
     ∧ (statusesLive env).get? i =
         some ⟨(FEEDS.get ⟨i, hi⟩).name, (FEEDS.get ⟨i, hi⟩).cat, str "FAIL",
               (FEEDS.get ⟨i, hi⟩).urls.headD [], e, 0⟩)
    ∧ (∀ (f : Feed) (pre : List Str) (u : Str) (post : List Str)
         (recs : List RawRecord),
         f.urls = pre ++ u :: post →
         (∀ v ∈ pre, ∃ e0, env.fetchParse v = Except.error e0) →
         env.fetchParse u = Except.ok recs →
         (processFeed env (loadSeen env) f).items =
           (recs.take MAX_ITEMS_PER_FEED).map
             (normalizeItem env f (loadSeen env)))
    ∧ (∀ (j : Nat) (hj : j < FEEDS.length),
         ((processFeed env (loadSeen env) (FEEDS.get ⟨j, hj⟩)).items).Sublist
           (mergedLive env)) := by
  have htry : tryUrls env (FEEDS.get ⟨i, hi⟩) (loadSeen env)
      ((FEEDS.get ⟨i, hi⟩).urls) [] = ⟨[], [], e, (FEEDS.get ⟨i, hi⟩).urls⟩ :=
    tryUrls_allFail env (FEEDS.get ⟨i, hi⟩) (loadSeen env)
      ((FEEDS.get ⟨i, hi⟩).urls) [] ul e h1 h2 h3
  have hpf : processFeed env (loadSeen env) (FEEDS.get ⟨i, hi⟩) =
      ⟨[], ⟨(FEEDS.get ⟨i, hi⟩).name, (FEEDS.get ⟨i, hi⟩).cat, str "FAIL",
            (FEEDS.get ⟨i, hi⟩).urls.headD [], e, 0⟩,
       (FEEDS.get ⟨i, hi⟩).urls⟩ := by
    unfold processFeed
    rw [htry]
    simp
  refine ⟨⟨by rw [hpf], ?_⟩, ?_, ?_⟩
  · have hst : (statusesLive env).get? i =
        (FEEDS.get? i).map (fun f => (processFeed env (loadSeen env) f).status) := by
      simp [statusesLive, List.get?_map]
    rw [hst, List.get?_eq_get hi, Option.map_some', hpf]
  · intro f pre u post recs hurls hpre hok
    rw [processFeed_items_eq, hurls,
      tryUrls_success env f (loadSeen env) pre u post [] recs hpre hok]
  · intro j hj
    apply sublist_flatten_of_mem
    exact List.mem_map_of_mem _ (List.get_mem FEEDS j hj)

/-- C2 witness: with every fetch failing, the first source contributes no
items. -/
theorem C2_source_failure_isolation_witness :
    (processFeed envAllFail (loadSeen envAllFail) (FEEDS.get ⟨0, by decide⟩)).items
      = [] :=
  (C2_source_failure_isolation envAllFail 0 (by decide)
    (str "https://www.cbc.ca/webfeed/rss/rss-topstories") (str "boom")
    (fun u hu => ⟨str "boom", rfl⟩) rfl rfl).1.1

/-- C1 (counterexample): the claim says no two items in the list returned
by a live `fetch_all` share an id.  In the environment in which every
source's feed parses to the same record (same item URL, hence the same id),
the returned list carries the same id once per source — `fetch_all` performs
no de-duplication. -/
theorem C1_dedup_counterexample :
    ¬ ((retItems (fetchAll envDup true)).map (fun it => it.id)).Nodup := by
  decide

/-- C1 (amended): `fetch_all` does not de-duplicate: the returned live list
is exactly the sorted-then-truncated merged collection, so whenever the
merged collection is within the 700-item cap, every id occurs in the
returned list exactly as often as sources produced it — duplicates
included. -/
theorem C1_dedup_amended (env : Env) (k : Str) (hc : env.cacheWriteFails = false)
    (hlen : (mergedLive env).length ≤ MAX_ITEMS_TOTAL) :
    (fetchAll env true).ret = Except.ok (liveItems env, statusesLive env, str "live")
    ∧ (liveItems env).countP (fun it => it.id == k)
        = (mergedLive env).countP (fun it => it.id == k) := by
  refine ⟨livePass_ret env hc, ?_⟩
  unfold liveItems
  have hperm := sortDesc_perm (mergedLive env)
  have hlen2 : (sortDesc (mergedLive env)).length = (mergedLive env).length :=
    hperm.length_eq
  rw [List.take_of_length_le (by omega)]
  exact hperm.countP_eq _

/-- C1 witness: in the duplicate-producing environment the id shared by all
sources occurs equally often in the returned list and in the merged
collection (19 times each). -/
theorem C1_dedup_amended_witness :
    (liveItems envDup).countP (fun it => it.id == str "http://d/a")
      = (mergedLive envDup).countP (fun it => it.id == str "http://d/a") :=
  (C1_dedup_amended envDup (str "http://d/a") rfl (by decide)).2

/-- C4 (counterexample): the claim says zero-epoch (unparseable-date) items
sort last.  With one source serving an unparseable date (epoch 0) and a
1960 publish date (negative timestamp), the zero-epoch item sorts FIRST:
the key `float(x.epoch or 0.0)` puts 0 above every negative epoch. -/
theorem C4_sort_truncate_counterexample :
    (retItems (fetchAll envNeg true)).map (fun it => it.epoch) = [0, -315619200]
    ∧ ¬ zerosLast (retItems (fetchAll envNeg true)) := by
  constructor
  · decide
  · intro h
    have h01 := h 0 1 (by decide) (by decide) (by decide) (by decide)
    exact absurd h01 (by decide)

/-- C4 (amended): a live `fetch_all` returns the merged collection sorted
descending by epoch and truncated to at most 700 items; the sort is stable
(each equal-epoch class keeps its source-iteration order) and a permutation
of the merged collection; and zero-epoch items sort last PROVIDED no item
carries a negative epoch (no pre-1970 publish date). -/
theorem C4_sort_truncate_amended (env : Env) (hc : env.cacheWriteFails = false) :
    (fetchAll env true).ret = Except.ok (liveItems env, statusesLive env, str "live")
    ∧ (liveItems env).Pairwise (fun a b => b.epoch ≤ a.epoch)
    ∧ (liveItems env).length ≤ MAX_ITEMS_TOTAL
    ∧ (∀ k : Int, (sortDesc (mergedLive env)).filter (fun it => it.epoch == k)
        = (mergedLive env).filter (fun it => it.epoch == k))
    ∧ (sortDesc (mergedLive env)).Perm (mergedLive env)
    ∧ ((∀ it ∈ liveItems env, 0 ≤ it.epoch) → zerosLast (liveItems env)) := by
  have hpw : (liveItems env).Pairwise (fun a b => b.epoch ≤ a.epoch) :=
    List.Pairwise.sublist (List.take_sublist _ _) (sortDesc_pairwise _)
  refine ⟨livePass_ret env hc, hpw, ?_, fun k => sortDesc_filter k _,
    sortDesc_perm _, ?_⟩
  · unfold liveItems
    exact List.length_take_le _ _
  · intro hnn i j hi hj hij h0
    have hij2 := List.pairwise_iff_get.mp hpw ⟨i, hi⟩ ⟨j, hj⟩ hij
    have hj0 := hnn _ (List.get_mem (liveItems env) j hj)
    rw [h0] at hij2
    omega

/-- C4 witness: with every fetch failing, the live result is the empty
list, trivially within the cap. -/
theorem C4_sort_truncate_amended_witness :
    (liveItems envAllFail).length ≤ MAX_ITEMS_TOTAL :=
  (C4_sort_truncate_amended envAllFail rfl).2.2.1
